import Mathlib

/-!
Shallow embedding of `drivers/usb/udc/udc_renesas_ra.c` (Zephyr UDC shim driver
for the Renesas RA USB device controller) together with proofs about the
transfer-engine and control-stage event handlers.

Modelling conventions:
* Hardware (Controller) calls `R_USBD_XferStart`, `R_USBD_XferAbort`,
  `R_USBD_EdptOpen`, `R_USBD_EdptClose` and upstream notifications
  (`udc_submit_ep_event`, `udc_ctrl_submit_*`) are recorded in an output list
  of `Action`s; the success/failure result a Controller call would return is
  supplied as an explicit Boolean environment argument to each handler.
* The helpers of the common UDC layer (`udc_common`) are not part of the
  source tree; they are modelled from the specification and marked as such
  in their doc comments.
* Buffer identity (the `net_buf` pointer) is modelled by a numeric id drawn
  from an allocation counter kept in the driver state; every buffer entering
  the model receives a fresh id.
* Machine integers: endpoint addresses are 8-bit values in the driver; they
  are modelled as `Nat` with the direction bit read as `ep / 128 % 2` and the
  index as `ep % 16`, exactly the bit tests `USB_EP_DIR_IS_IN` /
  `USB_EP_GET_IDX` perform.
-/

set_option linter.all false

namespace UdcRenesasRa

/-- Errno magnitude for EIO (I/O-class error). -/
def eioE : Int := 5

/-- Errno magnitude for ENOMEM (out-of-memory error). -/
def enomemE : Int := 12

/-- Errno magnitude for ECONNABORTED (abort-class error). -/
def econnabortedE : Int := 103

/-- Errno magnitude for ECONNREFUSED (connection-refused-class error). -/
def econnrefusedE : Int := 111

/-- Embedding of `USB_EP_GET_IDX`: the low four bits of an endpoint address. -/
def USB_EP_GET_IDX (ep : Nat) : Nat := ep % 16

/-- Embedding of `USB_EP_DIR_IS_IN`: bit 7 of the endpoint address. -/
def USB_EP_DIR_IS_IN (ep : Nat) : Bool := decide (ep / 128 % 2 = 1)

/-- Address of the control OUT endpoint. -/
def USB_CONTROL_EP_OUT : Nat := 0

/-- Address of the control IN endpoint. -/
def USB_CONTROL_EP_IN : Nat := 128

/-- Model of a `net_buf` transfer buffer: identity, current data length,
capacity (`size`), the ZLP-needed flag, the setup flag, and — for setup
buffers — the decoded direction bit and `wLength` of the setup packet. -/
structure NetBuf where
  id : Nat
  len : Nat
  size : Nat
  zlp : Bool
  isSetup : Bool
  sDirIn : Bool
  sLen : Nat
  deriving Repr, DecidableEq

/-- Control-transfer stage, modelled from the spec (the stage bookkeeping
lives in the common UDC layer, outside the source tree). -/
inductive CtrlStage where
  | setupStage
  | dataOut
  | dataIn
  | noData
  | statusOut
  | statusIn
  deriving Repr, DecidableEq

/-- Per-endpoint state: the busy flag, the halted flag and the FIFO of
pending transfer buffers (head = in-service buffer). -/
structure EpState where
  busy : Bool
  halted : Bool
  fifo : List NetBuf
  deriving Repr, DecidableEq

/-- Driver state: per-endpoint state indexed by endpoint address, the
buffer-id allocation counter, and the control stage. -/
structure DrvState where
  eps : Nat → EpState
  nextId : Nat
  stage : CtrlStage

/-- Calls to the Controller and notifications to the Upstream Notifier,
recorded in program order. -/
inductive Action where
  | xferStart (ep : Nat) (len : Nat)
  | xferAbort (ep : Nat)
  | edptOpen (ep attrs mps interval : Nat)
  | edptClose (ep : Nat)
  | epEvent (bufId : Nat) (status : Int)
  | ctrlSInStatus
  | ctrlSStatus
  | ctrlStatus (bufId : Nat)
  | ctrlSOutStatus (bufId : Nat)
  | bufRelease (bufId : Nat)
  deriving Repr, DecidableEq

/-- Pointwise update of one endpoint's state. -/
def updEp (st : DrvState) (ep : Nat) (f : EpState → EpState) : DrvState :=
  { st with eps := fun e => if e = ep then f (st.eps e) else st.eps e }

/-- Modelled from the spec: `udc_buf_peek` (udc_common, not in the source
tree) returns the head of the endpoint's FIFO without removing it. -/
def udc_buf_peek (st : DrvState) (ep : Nat) : Option NetBuf :=
  ((st.eps ep).fifo).head?

/-- Modelled from the spec: `udc_buf_get` (udc_common, not in the source
tree) removes and returns the head of the endpoint's FIFO. -/
def udc_buf_get (st : DrvState) (ep : Nat) : Option NetBuf × DrvState :=
  match (st.eps ep).fifo with
  | [] => (none, st)
  | b :: rest => (some b, updEp st ep fun s => { s with fifo := rest })

/-- Modelled from the spec: `udc_buf_put` (udc_common, not in the source
tree) appends a buffer to the endpoint's FIFO (insertion order = service
order). -/
def udc_buf_put (st : DrvState) (ep : Nat) (b : NetBuf) : DrvState :=
  updEp st ep fun s => { s with fifo := s.fifo ++ [b] }

/-- Modelled from the spec: `udc_buf_get_all` (udc_common, not in the source
tree) removes and returns every buffer queued on the endpoint. -/
def udc_buf_get_all (st : DrvState) (ep : Nat) : List NetBuf × DrvState :=
  ((st.eps ep).fifo, updEp st ep fun s => { s with fifo := [] })

/-- Modelled from the spec: `udc_ep_is_busy` (udc_common, not in the source
tree) reads the endpoint's busy flag. -/
def udc_ep_is_busy (st : DrvState) (ep : Nat) : Bool := (st.eps ep).busy

/-- Modelled from the spec: `udc_ep_set_busy` (udc_common, not in the source
tree) writes the endpoint's busy flag. -/
def udc_ep_set_busy (st : DrvState) (ep : Nat) (v : Bool) : DrvState :=
  updEp st ep fun s => { s with busy := v }

/-- Modelled from the spec: `udc_submit_ep_event` (udc_common, not in the
source tree) hands the buffer back to the Upstream Notifier with the given
status. -/
def udc_submit_ep_event (b : NetBuf) (status : Int) : Action :=
  .epEvent b.id status

/-- Modelled from the spec: `udc_ep_buf_clear_zlp` clears the
needs-zero-length-terminator flag of the buffer; the buffer object is shared
with the endpoint FIFO, so the head entry is the one updated. -/
def udc_ep_buf_clear_zlp (st : DrvState) (ep : Nat) : DrvState :=
  updEp st ep fun s =>
    { s with fifo :=
        match s.fifo with
        | [] => []
        | b :: rest => { b with zlp := false } :: rest }

/-- Modelled from the spec: `udc_ctrl_update_stage` (udc_common, not in the
source tree). For a setup buffer the next stage is derived from the setup
packet's direction and `wLength` (length 0 gives NO_DATA, OUT with data gives
DATA_OUT, IN with data gives DATA_IN); for other buffers the stage advances
monotonically forward through the data and status stages. -/
def udc_ctrl_update_stage (st : DrvState) (buf : NetBuf) : DrvState :=
  { st with stage :=
      if buf.isSetup then
        if buf.sLen = 0 then .noData
        else if buf.sDirIn then .dataIn
        else .dataOut
      else
        match st.stage with
        | .dataOut => .statusIn
        | .dataIn => .statusOut
        | .noData => .statusIn
        | .statusOut => .setupStage
        | .statusIn => .setupStage
        | .setupStage => .setupStage }

/-- Embedding of `udc_event_xfer_next` (source lines 99-125). `startOk` is
the result the Controller returns for `R_USBD_XferStart`. Returns the new
state and the recorded Controller calls / notifications. -/
def udc_event_xfer_next (startOk : Bool) (st : DrvState) (ep : Nat) :
    DrvState × List Action :=
  if udc_ep_is_busy st ep then (st, [])
  else
    match udc_buf_peek st ep with
    | none => (st, [])
    | some buf =>
      let l := if USB_EP_DIR_IS_IN ep then buf.len else buf.size
      if startOk then (udc_ep_set_busy st ep true, [.xferStart ep l])
      else (st, [.xferStart ep l, udc_submit_ep_event buf (-econnrefusedE)])

/-- Embedding of `usbd_ctrl_feed_dout` (source lines 127-145). `allocOk` is
the result of `udc_ctrl_alloc` (modelled from the spec: allocates a buffer of
the requested size with a fresh identity), `startOk` the Controller result.
Returns state, actions and the C return value. -/
def usbd_ctrl_feed_dout (allocOk startOk : Bool) (st : DrvState)
    (length : Nat) : DrvState × List Action × Int :=
  if !allocOk then (st, [], -enomemE)
  else
    let buf : NetBuf :=
      { id := st.nextId, len := 0, size := length, zlp := false,
        isSetup := false, sDirIn := false, sLen := 0 }
    let st1 := { st with nextId := st.nextId + 1 }
    let st2 := udc_buf_put st1 USB_CONTROL_EP_OUT buf
    if !startOk then (st2, [.xferStart USB_CONTROL_EP_OUT buf.size], -eioE)
    else (st2, [.xferStart USB_CONTROL_EP_OUT buf.size], 0)

/-- Embedding of `udc_event_xfer_ctrl_in` (source lines 183-198).
`allocOk`/`startOk` are the environment for the zero-length
`usbd_ctrl_feed_dout` it performs when the new stage is STATUS_OUT (its
return value is ignored by the source). -/
def udc_event_xfer_ctrl_in (allocOk startOk : Bool) (st : DrvState)
    (buf : NetBuf) : DrvState × List Action :=
  let acts1 : List Action :=
    if st.stage = .statusIn ∨ st.stage = .noData then [.ctrlStatus buf.id]
    else []
  let st1 := udc_ctrl_update_stage st buf
  if st1.stage = .statusOut then
    let r := usbd_ctrl_feed_dout allocOk startOk st1 0
    (r.1, acts1 ++ r.2.1 ++ [.bufRelease buf.id])
  else (st1, acts1)

/-- Embedding of `udc_event_xfer_ctrl_out` (source lines 217-233). -/
def udc_event_xfer_ctrl_out (st : DrvState) (buf : NetBuf) (len : Nat) :
    DrvState × List Action :=
  let buf1 := { buf with len := buf.len + len }
  let acts1 : List Action :=
    if st.stage = .statusOut then [.ctrlStatus buf1.id] else []
  let st1 := udc_ctrl_update_stage st buf1
  let acts2 : List Action :=
    if st1.stage = .statusIn then [.ctrlSOutStatus buf1.id] else []
  (st1, acts1 ++ acts2)

/-- Embedding of `udc_event_status_in` (source lines 200-215). If the
control-IN queue is empty the event is logged and ignored; otherwise a
zero-length status-stage `R_USBD_XferStart` is issued (its result is ignored
by the source) and the control-IN completion logic runs. -/
def udc_event_status_in (allocOk startOk : Bool) (st : DrvState) :
    DrvState × List Action :=
  match udc_buf_get st USB_CONTROL_EP_IN with
  | (none, _) => (st, [])
  | (some buf, st1) =>
    let r := udc_event_xfer_ctrl_in allocOk startOk st1 buf
    (r.1, Action.xferStart USB_CONTROL_EP_IN 0 :: r.2)

/-- Embedding of `udc_event_xfer_setup` (source lines 147-181).
`allocSetupOk` is the result of allocating the setup buffer; `feedAllocOk`
and `feedStartOk` are the environment for the data-OUT stage feed. The setup
packet is abstracted to its direction bit and `wLength`. Returns state,
actions and the C return value (ignored by the dispatch loop). -/
def udc_event_xfer_setup (allocSetupOk feedAllocOk feedStartOk : Bool)
    (st : DrvState) (dirIn : Bool) (wLength : Nat) :
    DrvState × List Action × Int :=
  if !allocSetupOk then (st, [], -enomemE)
  else
    let buf : NetBuf :=
      { id := st.nextId, len := 8, size := 8, zlp := false,
        isSetup := true, sDirIn := dirIn, sLen := wLength }
    let st1 := { st with nextId := st.nextId + 1 }
    let st2 := udc_ctrl_update_stage st1 buf
    if st2.stage = .dataOut then
      let r := usbd_ctrl_feed_dout feedAllocOk feedStartOk st2 wLength
      if r.2.2 = -enomemE then
        (r.1, r.2.1 ++ [udc_submit_ep_event buf (-enomemE)], -enomemE)
      else (r.1, r.2.1, r.2.2)
    else if st2.stage = .dataIn then (st2, [.ctrlSInStatus], 0)
    else (st2, [.ctrlSStatus], 0)

/-- Embedding of `udc_event_xfer_complete` (source lines 235-281). `ok` is
the hardware result carried by the event, `len` the completed length,
`zlpOk` the Controller result for the ZLP reissue, and
`feedAllocOk`/`feedStartOk` the environment for a feed performed by the
control-IN path. -/
def udc_event_xfer_complete (zlpOk feedAllocOk feedStartOk : Bool)
    (st : DrvState) (ep : Nat) (ok : Bool) (len : Nat) :
    DrvState × List Action :=
  let st1 := udc_ep_set_busy st ep false
  match udc_buf_peek st1 ep with
  | none => (st1, [])
  | some buf =>
    if !ok then (st1, [udc_submit_ep_event buf (-eioE)])
    else if USB_EP_DIR_IS_IN ep && buf.zlp then
      let st2 := udc_ep_buf_clear_zlp st1 ep
      if zlpOk then (st2, [.xferStart ep 0])
      else (st2, [.xferStart ep 0, udc_submit_ep_event buf (-eioE)])
    else
      match udc_buf_get st1 ep with
      | (none, st3) => (st3, [])
      | (some buf1, st3) =>
        if ep = USB_CONTROL_EP_IN then
          udc_event_xfer_ctrl_in feedAllocOk feedStartOk st3 buf1
        else if ep = USB_CONTROL_EP_OUT then
          udc_event_xfer_ctrl_out st3 buf1 len
        else
          let buf2 :=
            if USB_EP_DIR_IS_IN ep then buf1
            else { buf1 with len := buf1.len + len }
          (st3, [udc_submit_ep_event buf2 0])

/-- Embedding of `udc_renesas_ra_ep_dequeue` (source lines 348-370).
`abortOk` is the Controller result for `R_USBD_XferAbort`. All queued
buffers are removed and handed back with `-ECONNABORTED` (the source submits
the chain returned by `udc_buf_get_all`, which reports each buffer, modelled
from the spec); then the Controller abort is requested, and on its success
the busy flag is cleared and 0 returned. -/
def udc_renesas_ra_ep_dequeue (abortOk : Bool) (st : DrvState) (ep : Nat) :
    DrvState × List Action × Int :=
  let r := udc_buf_get_all st ep
  let acts1 := r.1.map (fun b => udc_submit_ep_event b (-econnabortedE))
  if !abortOk then (r.2, acts1 ++ [.xferAbort ep], -eioE)
  else (udc_ep_set_busy r.2 ep false, acts1 ++ [.xferAbort ep], 0)

/-- Kind discriminator of a queued driver event. -/
inductive EvtType where
  | hal
  | xfer
  | status
  deriving Repr, DecidableEq

/-- A queued driver event (`struct udc_renesas_ra_evt`, HAL payload
abstracted away). -/
structure Evt where
  ty : EvtType
  ep : Nat
  deriving Repr, DecidableEq

/-- Bounded message queue (`drv_msgq`). -/
structure MsgQ where
  cap : Nat
  msgs : List Evt
  deriving Repr, DecidableEq

/-- Modelled from the spec: `k_msgq_put` with `K_NO_WAIT` (Zephyr kernel,
not in the source tree) appends the message if the queue is below capacity
and otherwise returns an error immediately without blocking. -/
def k_msgq_put_nowait (q : MsgQ) (e : Evt) : MsgQ × Bool :=
  if q.msgs.length < q.cap then ({ q with msgs := q.msgs ++ [e] }, true)
  else (q, false)

/-- Embedding of `udc_renesas_ra_ep_enqueue` (source lines 323-346): append
the buffer to the endpoint FIFO, build the event (STATUS kind exactly for a
zero-length buffer on the control IN endpoint, XFER kind otherwise), post it
with `K_NO_WAIT` (result ignored), and return 0. The built event is also
returned so its kind can be stated. -/
def udc_renesas_ra_ep_enqueue (st : DrvState) (q : MsgQ) (ep : Nat)
    (b : NetBuf) : DrvState × MsgQ × Evt × Int :=
  let st1 := udc_buf_put st ep b
  let evt : Evt :=
    { ty := if ep = USB_CONTROL_EP_IN ∧ b.len = 0 then .status else .xfer,
      ep := ep }
  let r := k_msgq_put_nowait q evt
  (st1, r.1, evt, 0)

/-- Embedding of the default branch of `udc_renesas_ra_event_handler`
(source lines 85-90): a HAL event that is not a bus-level event is posted to
the queue with `K_NO_WAIT`; the put result is ignored and nothing is
reported upstream. -/
def udc_renesas_ra_event_handler_hal (q : MsgQ) : MsgQ × List Action :=
  let evt : Evt := { ty := .hal, ep := 0 }
  let r := k_msgq_put_nowait q evt
  (r.1, [])

/-- Endpoint configuration fields consumed by enable/disable. -/
structure UdcEpConfig where
  addr : Nat
  attrs : Nat
  mps : Nat
  interval : Nat
  deriving Repr, DecidableEq

/-- Embedding of `udc_renesas_ra_ep_enable` (source lines 372-395): index-0
endpoints return 0 immediately; otherwise the endpoint descriptor is built
and `R_USBD_EdptOpen` called, failure giving -EIO. -/
def udc_renesas_ra_ep_enable (openOk : Bool) (st : DrvState)
    (cfg : UdcEpConfig) : DrvState × List Action × Int :=
  if USB_EP_GET_IDX cfg.addr = 0 then (st, [], 0)
  else if openOk then
    (st, [.edptOpen cfg.addr cfg.attrs cfg.mps cfg.interval], 0)
  else (st, [.edptOpen cfg.addr cfg.attrs cfg.mps cfg.interval], -eioE)

/-- Embedding of `udc_renesas_ra_ep_disable` (source lines 397-412). -/
def udc_renesas_ra_ep_disable (closeOk : Bool) (st : DrvState)
    (cfg : UdcEpConfig) : DrvState × List Action × Int :=
  if USB_EP_GET_IDX cfg.addr = 0 then (st, [], 0)
  else if closeOk then (st, [.edptClose cfg.addr], 0)
  else (st, [.edptClose cfg.addr], -eioE)

/-- One event of the dispatch-loop schedule (`renesas_ra_thread_handler`,
source lines 283-321), carrying the Controller results its handler will
observe. `enq` is the endpoint-FIFO append performed by
`udc_renesas_ra_ep_enqueue`; the event it posts is represented by the later
entries of the schedule itself, and the buffer receives a fresh id from the
allocation counter. -/
inductive TEvent where
  | enq (ep len size : Nat) (zlp : Bool)
  | xfer (ep : Nat) (startOk : Bool)
  | cmpl (ep : Nat) (ok : Bool) (len : Nat) (zlpOk feedAllocOk feedStartOk : Bool)
  | deq (ep : Nat) (abortOk : Bool)
  | setupEvt (dirIn : Bool) (wLength : Nat) (allocSetupOk feedAllocOk feedStartOk : Bool)
  | statusInEvt (feedAllocOk feedStartOk : Bool)
  deriving Repr, DecidableEq

/-- Dispatch of one scheduled event to its handler (the switch of
`renesas_ra_thread_handler`). -/
def step (st : DrvState) : TEvent → DrvState × List Action
  | .enq ep len size zlp =>
    let b : NetBuf :=
      { id := st.nextId, len := len, size := size, zlp := zlp,
        isSetup := false, sDirIn := false, sLen := 0 }
    (udc_buf_put { st with nextId := st.nextId + 1 } ep b, [])
  | .xfer ep s => udc_event_xfer_next s st ep
  | .cmpl ep ok len z fa fs => udc_event_xfer_complete z fa fs st ep ok len
  | .deq ep a =>
    let r := udc_renesas_ra_ep_dequeue a st ep
    (r.1, r.2.1)
  | .setupEvt d w a fa fs =>
    let r := udc_event_xfer_setup a fa fs st d w
    (r.1, r.2.1)
  | .statusInEvt fa fs => udc_event_status_in fa fs st

/-- Processing of a schedule, accumulating the recorded actions. -/
def run (st : DrvState) : List TEvent → DrvState × List Action
  | [] => (st, [])
  | e :: es =>
    let r1 := step st e
    let r2 := run r1.1 es
    (r2.1, r1.2 ++ r2.2)

/-- The driver state at thread start: no endpoint busy, all FIFOs empty. -/
def initState : DrvState :=
  { eps := fun _ => { busy := false, halted := false, fifo := [] },
    nextId := 0,
    stage := .setupStage }

/-- Number of terminal notifications (`udc_submit_ep_event` hand-backs) for
the buffer with the given id in an action list. -/
def notifCount : List Action → Nat → Nat
  | [], _ => 0
  | .epEvent i _ :: rest, id => (if i = id then 1 else 0) + notifCount rest id
  | _ :: rest, id => notifCount rest id

/-- Number of occurrences of the buffer with the given id in a FIFO. -/
def occCount : List NetBuf → Nat → Nat
  | [], _ => 0
  | b :: rest, id => (if b.id = id then 1 else 0) + occCount rest id

/-- Number of `R_USBD_XferStart` calls on the given endpoint in an action
list. -/
def startCount : List Action → Nat → Nat
  | [], _ => 0
  | .xferStart e _ :: rest, ep => (if e = ep then 1 else 0) + startCount rest ep
  | _ :: rest, ep => startCount rest ep

/-- A schedule event of the transfer engine proper (enqueue / start /
complete / dequeue) on which every Controller call succeeds, every hardware
completion result is a success, and completions target non-control
endpoints. -/
def engineOk : TEvent → Bool
  | .enq _ _ _ _ => true
  | .xfer _ s => s
  | .cmpl ep ok _ z _ _ =>
    ok && z && decide (ep ≠ USB_CONTROL_EP_IN) && decide (ep ≠ USB_CONTROL_EP_OUT)
  | .deq _ a => a
  | .setupEvt _ _ _ _ _ => false
  | .statusInEvt _ _ => false

/-- All events of the schedule satisfy `engineOk`. -/
def engineOnly (evs : List TEvent) : Bool := evs.all engineOk

/-- Did a schedule event dispatch `udc_event_xfer_next` on this endpoint in
a state where it issues a `R_USBD_XferStart` that succeeds? -/
def startNextIssues (st : DrvState) : TEvent → Nat → Bool
  | .xfer e s, ep => decide (e = ep) && s && !(st.eps e).busy && !(st.eps e).fifo.isEmpty
  | _, _ => false

/-- Does a schedule event clear the busy flag of this endpoint (a completion
event for it, or a dequeue whose Controller abort succeeds)? -/
def clearsBusy : TEvent → Nat → Bool
  | .cmpl e _ _ _ _ _, ep => decide (e = ep)
  | .deq e a, ep => decide (e = ep) && a
  | _, _ => false

/-! ## Basic lemmas about the state helpers and the counting functions -/

theorem updEp_eps (st : DrvState) (ep : Nat) (f : EpState → EpState) (e : Nat) :
    (updEp st ep f).eps e = if e = ep then f (st.eps ep) else st.eps e := by
  unfold updEp
  by_cases h : e = ep <;> simp [h]

theorem set_busy_eps (st : DrvState) (ep : Nat) (v : Bool) (e : Nat) :
    (udc_ep_set_busy st ep v).eps e =
      if e = ep then { st.eps ep with busy := v } else st.eps e := by
  unfold udc_ep_set_busy
  rw [updEp_eps]

theorem set_busy_busy (st : DrvState) (ep : Nat) (v : Bool) (e : Nat) :
    ((udc_ep_set_busy st ep v).eps e).busy =
      if e = ep then v else (st.eps e).busy := by
  rw [set_busy_eps]
  by_cases h : e = ep <;> simp [h]

theorem set_busy_fifo (st : DrvState) (ep : Nat) (v : Bool) (e : Nat) :
    ((udc_ep_set_busy st ep v).eps e).fifo = (st.eps e).fifo := by
  rw [set_busy_eps]
  by_cases h : e = ep <;> simp [h]

theorem set_busy_nextId (st : DrvState) (ep : Nat) (v : Bool) :
    (udc_ep_set_busy st ep v).nextId = st.nextId := rfl

theorem buf_put_busy (st : DrvState) (ep : Nat) (b : NetBuf) (e : Nat) :
    ((udc_buf_put st ep b).eps e).busy = (st.eps e).busy := by
  unfold udc_buf_put
  rw [updEp_eps]
  by_cases h : e = ep <;> simp [h]

theorem buf_put_fifo (st : DrvState) (ep : Nat) (b : NetBuf) (e : Nat) :
    ((udc_buf_put st ep b).eps e).fifo =
      if e = ep then (st.eps e).fifo ++ [b] else (st.eps e).fifo := by
  unfold udc_buf_put
  rw [updEp_eps]
  by_cases h : e = ep <;> simp [h]

theorem buf_get_busy (st : DrvState) (ep : Nat) (e : Nat) :
    (((udc_buf_get st ep).2).eps e).busy = (st.eps e).busy := by
  unfold udc_buf_get
  cases hf : (st.eps ep).fifo with
  | nil => rfl
  | cons b rest =>
    simp only [updEp_eps]
    by_cases h : e = ep <;> simp [h]

theorem clear_zlp_busy (st : DrvState) (ep : Nat) (e : Nat) :
    ((udc_ep_buf_clear_zlp st ep).eps e).busy = (st.eps e).busy := by
  unfold udc_ep_buf_clear_zlp
  rw [updEp_eps]
  by_cases h : e = ep <;> simp [h]

theorem update_stage_eps (st : DrvState) (b : NetBuf) :
    (udc_ctrl_update_stage st b).eps = st.eps := rfl

theorem update_stage_nextId (st : DrvState) (b : NetBuf) :
    (udc_ctrl_update_stage st b).nextId = st.nextId := rfl

theorem feed_dout_busy (a s : Bool) (st : DrvState) (l : Nat) (e : Nat) :
    (((usbd_ctrl_feed_dout a s st l).1).eps e).busy = (st.eps e).busy := by
  unfold usbd_ctrl_feed_dout
  cases a with
  | false => rfl
  | true =>
    cases s with
    | false => simp [buf_put_busy]
    | true => simp [buf_put_busy]

theorem ctrl_in_busy (a s : Bool) (st : DrvState) (b : NetBuf) (e : Nat) :
    (((udc_event_xfer_ctrl_in a s st b).1).eps e).busy = (st.eps e).busy := by
  unfold udc_event_xfer_ctrl_in
  by_cases h : (udc_ctrl_update_stage st b).stage = CtrlStage.statusOut <;>
    simp [h, feed_dout_busy, update_stage_eps]

theorem ctrl_out_busy (st : DrvState) (b : NetBuf) (l : Nat) (e : Nat) :
    (((udc_event_xfer_ctrl_out st b l).1).eps e).busy = (st.eps e).busy := by
  unfold udc_event_xfer_ctrl_out
  simp [update_stage_eps]

theorem notifCount_append (l1 l2 : List Action) (id : Nat) :
    notifCount (l1 ++ l2) id = notifCount l1 id + notifCount l2 id := by
  induction l1 with
  | nil => simp [notifCount]
  | cons a rest ih =>
    cases a <;> simp [notifCount, ih] <;> omega

theorem occCount_append (l1 l2 : List NetBuf) (id : Nat) :
    occCount (l1 ++ l2) id = occCount l1 id + occCount l2 id := by
  induction l1 with
  | nil => simp [occCount]
  | cons b rest ih => simp [occCount, ih]; omega

theorem notifCount_abortsMap (bufs : List NetBuf) (s : Int) (id : Nat) :
    notifCount (bufs.map fun b => udc_submit_ep_event b s) id =
      occCount bufs id := by
  unfold udc_submit_ep_event
  induction bufs with
  | nil => rfl
  | cons b rest ih => simp [notifCount, occCount, ih]

/-! ## Claim theorems -/

/-- C10: for every endpoint configuration whose endpoint index is 0 (either
direction of the control endpoint), `udc_renesas_ra_ep_enable` and
`udc_renesas_ra_ep_disable` return 0 immediately, issue no Controller
`R_USBD_EdptOpen`/`R_USBD_EdptClose` call, and leave the state unchanged. -/
theorem c10_ep_enable_disable_idx0 (openOk closeOk : Bool) (st : DrvState)
    (cfg : UdcEpConfig) (h : USB_EP_GET_IDX cfg.addr = 0) :
    udc_renesas_ra_ep_enable openOk st cfg = (st, [], 0) ∧
    udc_renesas_ra_ep_disable closeOk st cfg = (st, [], 0) := by
  unfold udc_renesas_ra_ep_enable udc_renesas_ra_ep_disable
  simp [h]

/-- Witness for C10 at the control IN endpoint address 0x80. -/
theorem c10_witness :
    USB_EP_GET_IDX 128 = 0 ∧
    udc_renesas_ra_ep_enable true initState ⟨128, 0, 64, 0⟩ =
      (initState, [], 0) ∧
    udc_renesas_ra_ep_disable true initState ⟨128, 0, 64, 0⟩ =
      (initState, [], 0) :=
  ⟨by decide,
   (c10_ep_enable_disable_idx0 true true initState ⟨128, 0, 64, 0⟩ (by decide)).1,
   (c10_ep_enable_disable_idx0 true true initState ⟨128, 0, 64, 0⟩ (by decide)).2⟩

/-- C7: a status-stage IN event processed while the control-IN endpoint's
queue is empty performs no Controller call, generates no notification and no
error, and leaves the state unchanged: `udc_event_status_in` returns the
input state with an empty action list. -/
theorem c7_status_in_empty_queue (allocOk startOk : Bool) (st : DrvState)
    (h : (st.eps USB_CONTROL_EP_IN).fifo = []) :
    udc_event_status_in allocOk startOk st = (st, []) := by
  unfold udc_event_status_in udc_buf_get
  simp [h]

/-- Witness for C7 in the thread-start state, whose control-IN queue is
empty. -/
theorem c7_witness :
    (initState.eps USB_CONTROL_EP_IN).fifo = [] ∧
    udc_event_status_in true true initState = (initState, []) :=
  ⟨rfl, c7_status_in_empty_queue true true initState rfl⟩

/-- C6: whenever `udc_renesas_ra_ep_dequeue` returns success, every buffer
that was queued on the endpoint has been handed back with `-ECONNABORTED`,
the Controller `R_USBD_XferAbort` has been called, and the endpoint's FIFO is
empty with the busy flag cleared; when the queue was already empty the abort
call is still performed and no notification is generated. -/
theorem c6_dequeue_success (a : Bool) (st : DrvState) (ep : Nat)
    (h : (udc_renesas_ra_ep_dequeue a st ep).2.2 = 0) :
    (udc_renesas_ra_ep_dequeue a st ep).2.1 =
      (st.eps ep).fifo.map (fun b => udc_submit_ep_event b (-econnabortedE))
        ++ [.xferAbort ep] ∧
    ((udc_renesas_ra_ep_dequeue a st ep).1.eps ep).fifo = [] ∧
    ((udc_renesas_ra_ep_dequeue a st ep).1.eps ep).busy = false ∧
    ((st.eps ep).fifo = [] →
      (udc_renesas_ra_ep_dequeue a st ep).2.1 = [.xferAbort ep]) := by
  cases a with
  | false =>
    exfalso
    unfold udc_renesas_ra_ep_dequeue at h
    simp [eioE] at h
  | true =>
    unfold udc_renesas_ra_ep_dequeue udc_buf_get_all
    refine ⟨by simp, ?_, ?_, ?_⟩
    · simp [set_busy_fifo, updEp_eps]
    · simp [set_busy_busy]
    · intro hf
      simp [hf]

/-- Witness for C6: dequeue of endpoint 0x01 holding one queued buffer, with
the Controller abort succeeding. -/
theorem c6_witness :
    (udc_renesas_ra_ep_dequeue true (step initState (.enq 1 4 8 false)).1 1).2.2
        = 0 ∧
    ((udc_renesas_ra_ep_dequeue true (step initState (.enq 1 4 8 false)).1
        1).1.eps 1).fifo = [] :=
  ⟨by decide,
   (c6_dequeue_success true (step initState (.enq 1 4 8 false)).1 1
      (by decide)).2.1⟩

/-- C8: `udc_renesas_ra_ep_enqueue` appends the buffer to the endpoint's
FIFO, builds exactly one event — of the distinct STATUS kind precisely when
the endpoint is the control IN endpoint and the buffer length is zero, of
the generic XFER kind for that endpoint otherwise — posts it (when the event
queue is not full it is appended to the queue), and returns 0. -/
theorem c8_ep_enqueue_spec (st : DrvState) (q : MsgQ) (ep : Nat)
    (b : NetBuf) :
    (udc_renesas_ra_ep_enqueue st q ep b).2.2.2 = 0 ∧
    ((udc_renesas_ra_ep_enqueue st q ep b).1.eps ep).fifo =
      (st.eps ep).fifo ++ [b] ∧
    (udc_renesas_ra_ep_enqueue st q ep b).2.2.1.ep = ep ∧
    (udc_renesas_ra_ep_enqueue st q ep b).2.2.1.ty =
      (if ep = USB_CONTROL_EP_IN ∧ b.len = 0 then .status else .xfer) ∧
    (q.msgs.length < q.cap →
      (udc_renesas_ra_ep_enqueue st q ep b).2.1.msgs =
        q.msgs ++ [(udc_renesas_ra_ep_enqueue st q ep b).2.2.1]) := by
  unfold udc_renesas_ra_ep_enqueue k_msgq_put_nowait
  refine ⟨rfl, ?_, rfl, rfl, ?_⟩
  · rw [buf_put_fifo]
    simp
  · intro hlt
    simp [hlt]

/-- Witness for C8: enqueue of a zero-length buffer on the control IN
endpoint with a non-full queue yields a STATUS event appended to the
queue. -/
theorem c8_witness :
    (MsgQ.mk 4 []).msgs.length < (MsgQ.mk 4 []).cap ∧
    (udc_renesas_ra_ep_enqueue initState (MsgQ.mk 4 []) 128
        ⟨0, 0, 64, false, false, false, 0⟩).2.1.msgs =
      [] ++ [(udc_renesas_ra_ep_enqueue initState (MsgQ.mk 4 []) 128
        ⟨0, 0, 64, false, false, false, 0⟩).2.2.1] :=
  ⟨by decide,
   (c8_ep_enqueue_spec initState (MsgQ.mk 4 []) 128
      ⟨0, 0, 64, false, false, false, 0⟩).2.2.2.2 (by decide)⟩

/-- C9 counterexample: with the event queue full (capacity 1, one message),
the claim "when the queue is full the event is dropped and a capacity error
is reported upstream" fails: the interrupt-side HAL handler drops the event
while reporting nothing upstream, and `udc_renesas_ra_ep_enqueue` drops its
event yet still returns 0 (success) — no capacity-error report exists on
either path. -/
theorem c9_counterexample :
    udc_renesas_ra_event_handler_hal
        { cap := 1, msgs := [{ ty := .hal, ep := 0 }] } =
      ({ cap := 1, msgs := [{ ty := .hal, ep := 0 }] }, []) ∧
    (udc_renesas_ra_ep_enqueue initState
        { cap := 1, msgs := [{ ty := .hal, ep := 0 }] } 1
        ⟨0, 4, 8, false, false, false, 0⟩).2.1 =
      { cap := 1, msgs := [{ ty := .hal, ep := 0 }] } ∧
    (udc_renesas_ra_ep_enqueue initState
        { cap := 1, msgs := [{ ty := .hal, ep := 0 }] } 1
        ⟨0, 4, 8, false, false, false, 0⟩).2.2.2 = 0 := by
  refine ⟨rfl, rfl, rfl⟩

/-- C9 (amended): the posting uses the non-blocking `K_NO_WAIT` put, and
when the event queue is full the event is dropped silently: the HAL handler
leaves the queue unchanged and reports nothing upstream, and
`udc_renesas_ra_ep_enqueue` leaves the queue unchanged and still returns 0;
the put result is ignored, so no capacity error is reported upstream. -/
theorem c9_full_queue_drop_silent (q : MsgQ) (st : DrvState) (ep : Nat)
    (b : NetBuf) (h : ¬ q.msgs.length < q.cap) :
    udc_renesas_ra_event_handler_hal q = (q, []) ∧
    (udc_renesas_ra_ep_enqueue st q ep b).2.1 = q ∧
    (udc_renesas_ra_ep_enqueue st q ep b).2.2.2 = 0 := by
  unfold udc_renesas_ra_event_handler_hal udc_renesas_ra_ep_enqueue
    k_msgq_put_nowait
  simp [h]

/-- Witness for C9 (amended) at a concrete full queue. -/
theorem c9_witness :
    ¬ (MsgQ.mk 1 [{ ty := .hal, ep := 0 }]).msgs.length <
        (MsgQ.mk 1 [{ ty := .hal, ep := 0 }]).cap ∧
    (udc_renesas_ra_ep_enqueue initState (MsgQ.mk 1 [{ ty := .hal, ep := 0 }])
        2 ⟨0, 4, 8, false, false, false, 0⟩).2.1 =
      MsgQ.mk 1 [{ ty := .hal, ep := 0 }] :=
  ⟨by decide,
   (c9_full_queue_drop_silent (MsgQ.mk 1 [{ ty := .hal, ep := 0 }]) initState
      2 ⟨0, 4, 8, false, false, false, 0⟩ (by decide)).2.1⟩

/-- C2 counterexample: endpoint 0x01 (OUT) is not busy and has two queued
buffers; the Controller refuses the start. The claim states the head buffer
is removed from the queue and a start of the second buffer is attempted
immediately; in fact the head buffer is handed back with `-ECONNREFUSED` but
remains at the head of the queue, and exactly one `R_USBD_XferStart` call is
recorded (no retry of the second buffer). -/
theorem c2_counterexample :
    ((run initState [.enq 1 4 8 false, .enq 1 4 8 false,
        .xfer 1 false]).1.eps 1).fifo =
      [⟨0, 4, 8, false, false, false, 0⟩, ⟨1, 4, 8, false, false, false, 0⟩] ∧
    (run initState [.enq 1 4 8 false, .enq 1 4 8 false, .xfer 1 false]).2 =
      [.xferStart 1 8, .epEvent 0 (-econnrefusedE)] ∧
    startCount (run initState [.enq 1 4 8 false, .enq 1 4 8 false,
        .xfer 1 false]).2 1 = 1 := by
  refine ⟨by decide, by decide, by decide⟩

/-- C2 (amended): when `udc_event_xfer_next` runs on a non-busy endpoint
with a queued head buffer, it issues one `R_USBD_XferStart`; on Controller
failure the head buffer is handed back with `-ECONNREFUSED` but is not
removed from the queue (the state is returned unchanged) and no start of the
next buffer is attempted; on Controller success the endpoint is marked busy
and the buffer stays at the head of the queue. -/
theorem c2_xfer_next_spec (startOk : Bool) (st : DrvState) (ep : Nat)
    (b : NetBuf) (rest : List NetBuf) (hb : (st.eps ep).busy = false)
    (hf : (st.eps ep).fifo = b :: rest) :
    udc_event_xfer_next startOk st ep =
      (if startOk then udc_ep_set_busy st ep true else st,
       if startOk then
         [.xferStart ep (if USB_EP_DIR_IS_IN ep then b.len else b.size)]
       else
         [.xferStart ep (if USB_EP_DIR_IS_IN ep then b.len else b.size),
          .epEvent b.id (-econnrefusedE)]) ∧
    ((udc_ep_set_busy st ep true).eps ep).busy = true ∧
    ((udc_ep_set_busy st ep true).eps ep).fifo = b :: rest ∧
    ∀ e, e ≠ ep → (udc_ep_set_busy st ep true).eps e = st.eps e := by
  refine ⟨?_, ?_, ?_, ?_⟩
  · unfold udc_event_xfer_next udc_ep_is_busy udc_buf_peek udc_submit_ep_event
    rw [hb, hf]
    cases startOk <;> simp
  · rw [set_busy_busy]
    simp
  · rw [set_busy_fifo]
    exact hf
  · intro e he
    rw [set_busy_eps]
    simp [he]

/-- Witness for C2 (amended): failure branch on a concrete one-buffer
state. -/
theorem c2_witness :
    ((run initState [.enq 1 4 8 false]).1.eps 1).busy = false ∧
    ((run initState [.enq 1 4 8 false]).1.eps 1).fifo =
      [⟨0, 4, 8, false, false, false, 0⟩] ∧
    udc_event_xfer_next false (run initState [.enq 1 4 8 false]).1 1 =
      ((run initState [.enq 1 4 8 false]).1,
       [.xferStart 1 8, .epEvent 0 (-econnrefusedE)]) :=
  ⟨by decide, by decide, by
    have h := (c2_xfer_next_spec false (run initState [.enq 1 4 8 false]).1 1
      ⟨0, 4, 8, false, false, false, 0⟩ [] (by decide) (by decide)).1
    simpa [USB_EP_DIR_IS_IN] using h⟩

/-- C3 counterexample: endpoint 0x01 completes with a hardware failure while
one buffer is queued. The claim states the head buffer is removed from the
queue; in fact it is handed back with `-EIO` but remains queued (the FIFO
still holds it afterwards). -/
theorem c3_counterexample :
    ((run initState [.enq 1 4 8 false, .xfer 1 true,
        .cmpl 1 false 0 true true true]).1.eps 1).fifo =
      [⟨0, 4, 8, false, false, false, 0⟩] ∧
    ((run initState [.enq 1 4 8 false, .xfer 1 true,
        .cmpl 1 false 0 true true true]).1.eps 1).busy = false ∧
    (run initState [.enq 1 4 8 false, .xfer 1 true,
        .cmpl 1 false 0 true true true]).2 =
      [.xferStart 1 8, .epEvent 0 (-eioE)] := by
  refine ⟨by decide, by decide, by decide⟩

/-- C3 (amended): a transfer-complete event carrying a hardware failure
result for an endpoint with a queued head buffer clears the busy flag and
hands the head buffer back with `-EIO`, but does not remove it from the
endpoint's queue: the final state is exactly the input state with the busy
flag cleared. -/
theorem c3_complete_failure_spec (z fa fs : Bool) (st : DrvState) (ep : Nat)
    (b : NetBuf) (rest : List NetBuf) (len : Nat)
    (hf : (st.eps ep).fifo = b :: rest) :
    udc_event_xfer_complete z fa fs st ep false len =
      (udc_ep_set_busy st ep false, [.epEvent b.id (-eioE)]) ∧
    ((udc_event_xfer_complete z fa fs st ep false len).1.eps ep).busy
        = false ∧
    ((udc_event_xfer_complete z fa fs st ep false len).1.eps ep).fifo
        = b :: rest := by
  have hpeek : udc_buf_peek (udc_ep_set_busy st ep false) ep = some b := by
    unfold udc_buf_peek
    rw [set_busy_fifo, hf]
    rfl
  have hmain : udc_event_xfer_complete z fa fs st ep false len =
      (udc_ep_set_busy st ep false, [.epEvent b.id (-eioE)]) := by
    unfold udc_event_xfer_complete udc_submit_ep_event
    simp only [hpeek]
    simp
  refine ⟨hmain, ?_, ?_⟩
  · rw [hmain, set_busy_busy]
    simp
  · rw [hmain, set_busy_fifo, hf]

/-- Witness for C3 (amended) on a concrete one-buffer state. -/
theorem c3_witness :
    ((run initState [.enq 1 4 8 false, .xfer 1 true]).1.eps 1).fifo =
      [⟨0, 4, 8, false, false, false, 0⟩] ∧
    ((udc_event_xfer_complete true true true
        (run initState [.enq 1 4 8 false, .xfer 1 true]).1 1 false 0).1.eps
        1).fifo = [⟨0, 4, 8, false, false, false, 0⟩] :=
  ⟨by decide,
   (c3_complete_failure_spec true true true
      (run initState [.enq 1 4 8 false, .xfer 1 true]).1 1
      ⟨0, 4, 8, false, false, false, 0⟩ [] 0 (by decide)).2.2⟩

theorem updEp_fifo_busy (st : DrvState) (e : Nat) (l : List NetBuf)
    (ep : Nat) :
    ((updEp st e fun s => { s with fifo := l }).eps ep).busy =
      (st.eps ep).busy := by
  rw [updEp_eps]
  by_cases h : ep = e <;> simp [h]

theorem complete_busy (z fa fs : Bool) (st : DrvState) (e : Nat) (ok : Bool)
    (len : Nat) (ep : Nat) :
    ((udc_event_xfer_complete z fa fs st e ok len).1.eps ep).busy =
      if ep = e then false else (st.eps ep).busy := by
  rw [← set_busy_busy st e false ep]
  unfold udc_event_xfer_complete
  cases hf : ((udc_ep_set_busy st e false).eps e).fifo with
  | nil =>
    have hpeek : udc_buf_peek (udc_ep_set_busy st e false) e = none := by
      unfold udc_buf_peek
      rw [hf]
      rfl
    simp only [hpeek]
  | cons b rest =>
    have hpeek : udc_buf_peek (udc_ep_set_busy st e false) e = some b := by
      unfold udc_buf_peek
      rw [hf]
      rfl
    simp only [hpeek]
    cases ok with
    | false => simp
    | true =>
      by_cases hz : (USB_EP_DIR_IS_IN e && b.zlp) = true
      · cases z <;> simp [hz, clear_zlp_busy]
      · have hg : udc_buf_get (udc_ep_set_busy st e false) e =
            (some b, updEp (udc_ep_set_busy st e false) e
              fun s => { s with fifo := rest }) := by
          unfold udc_buf_get
          rw [hf]
        simp only [hg, hz]
        by_cases h0i : e = USB_CONTROL_EP_IN
        · simp [h0i, ctrl_in_busy, updEp_fifo_busy]
        · by_cases h0o : e = USB_CONTROL_EP_OUT
          · simp [h0i, h0o, ctrl_out_busy, updEp_fifo_busy,
              USB_CONTROL_EP_OUT, USB_CONTROL_EP_IN]
          · simp [h0i, h0o, updEp_fifo_busy]

theorem setup_busy (a fa fs : Bool) (st : DrvState) (d : Bool) (w : Nat)
    (ep : Nat) :
    ((udc_event_xfer_setup a fa fs st d w).1.eps ep).busy =
      (st.eps ep).busy := by
  unfold udc_event_xfer_setup
  cases a with
  | false => rfl
  | true =>
    simp only [Bool.not_true, Bool.false_eq_true, if_false]
    split
    · split
      · rw [feed_dout_busy, update_stage_eps]
      · rw [feed_dout_busy, update_stage_eps]
    · split
      · rfl
      · rfl

theorem status_in_busy (fa fs : Bool) (st : DrvState) (ep : Nat) :
    ((udc_event_status_in fa fs st).1.eps ep).busy = (st.eps ep).busy := by
  unfold udc_event_status_in
  cases hf : (st.eps USB_CONTROL_EP_IN).fifo with
  | nil =>
    have hg : udc_buf_get st USB_CONTROL_EP_IN = (none, st) := by
      unfold udc_buf_get
      rw [hf]
    simp only [hg]
  | cons b rest =>
    have hg : udc_buf_get st USB_CONTROL_EP_IN =
        (some b, updEp st USB_CONTROL_EP_IN
          fun s => { s with fifo := rest }) := by
      unfold udc_buf_get
      rw [hf]
    simp only [hg]
    rw [ctrl_in_busy, updEp_fifo_busy]

/-- C5 counterexample: the dispatch loop processes a SETUP event whose packet
announces an OUT data stage (direction OUT, `wLength` 8, all Controller calls
succeeding). `usbd_ctrl_feed_dout` issues `R_USBD_XferStart` on the control
OUT endpoint — so a transfer_start has been issued and no complete event has
been processed — yet the endpoint's busy flag is still false afterwards,
refuting the claimed iff. -/
theorem c5_counterexample :
    (run initState [.setupEvt false 8 true true true]).2 =
      [.xferStart USB_CONTROL_EP_OUT 8] ∧
    ((run initState [.setupEvt false 8 true true
        true]).1.eps USB_CONTROL_EP_OUT).busy = false ∧
    occCount ((run initState [.setupEvt false 8 true true
        true]).1.eps USB_CONTROL_EP_OUT).fifo 1 = 1 := by
  refine ⟨by decide, by decide, by decide⟩

/-- C5 (amended): across every dispatch-loop event, the busy flag of an
endpoint is set exactly by a successful `R_USBD_XferStart` issued by
`udc_event_xfer_next` (a start event for a non-busy endpoint with a
non-empty queue whose Controller call succeeds) and cleared exactly by a
transfer-complete event for that endpoint or a dequeue whose Controller
abort succeeds; every other event — including the transfer starts issued by
`usbd_ctrl_feed_dout`, the status-stage start and the ZLP reissue — leaves
it unchanged. -/
theorem c5_busy_flag (st : DrvState) (ev : TEvent) (ep : Nat) :
    ((step st ev).1.eps ep).busy =
      if startNextIssues st ev ep then true
      else if clearsBusy ev ep then false
      else (st.eps ep).busy := by
  cases ev with
  | enq e l sz z =>
    show ((udc_buf_put _ e _).eps ep).busy = _
    rw [buf_put_busy]
    simp [startNextIssues, clearsBusy]
  | xfer e s =>
    show ((udc_event_xfer_next s st e).1.eps ep).busy = _
    cases hb : (st.eps e).busy with
    | true =>
      have h1 : udc_event_xfer_next s st e = (st, []) := by
        unfold udc_event_xfer_next udc_ep_is_busy
        rw [hb]
        simp
      rw [h1]
      simp [startNextIssues, clearsBusy, hb]
    | false =>
      cases hf : (st.eps e).fifo with
      | nil =>
        have h1 : udc_event_xfer_next s st e = (st, []) := by
          unfold udc_event_xfer_next udc_ep_is_busy udc_buf_peek
          rw [hb, hf]
          simp
        rw [h1]
        simp [startNextIssues, clearsBusy, hf]
      | cons b rest =>
        cases s with
        | false =>
          have h1 : (udc_event_xfer_next false st e).1 = st := by
            unfold udc_event_xfer_next udc_ep_is_busy udc_buf_peek
            rw [hb, hf]
            simp
          rw [h1]
          simp [startNextIssues, clearsBusy]
        | true =>
          have h1 : (udc_event_xfer_next true st e).1 =
              udc_ep_set_busy st e true := by
            unfold udc_event_xfer_next udc_ep_is_busy udc_buf_peek
            rw [hb, hf]
            simp
          rw [h1, set_busy_busy]
          simp only [startNextIssues, clearsBusy, hb, hf]
          by_cases hep : ep = e
          · simp [hep]
          · have hne : ¬ e = ep := fun h => hep h.symm
            simp [hep, hne]
  | cmpl e ok len z fa fs =>
    show ((udc_event_xfer_complete z fa fs st e ok len).1.eps ep).busy = _
    rw [complete_busy]
    simp only [startNextIssues, clearsBusy]
    by_cases hep : ep = e
    · simp [hep]
    · have hne : ¬ e = ep := fun h => hep h.symm
      simp [hep, hne]
  | deq e a =>
    show (((udc_renesas_ra_ep_dequeue a st e).1).eps ep).busy = _
    cases a with
    | false =>
      have h1 : (udc_renesas_ra_ep_dequeue false st e).1 =
          updEp st e fun s => { s with fifo := [] } := by
        unfold udc_renesas_ra_ep_dequeue udc_buf_get_all
        simp
      rw [h1, updEp_fifo_busy]
      simp [startNextIssues, clearsBusy]
    | true =>
      have h1 : (udc_renesas_ra_ep_dequeue true st e).1 =
          udc_ep_set_busy (updEp st e fun s => { s with fifo := [] }) e
            false := by
        unfold udc_renesas_ra_ep_dequeue udc_buf_get_all
        simp
      rw [h1, set_busy_busy]
      simp only [startNextIssues, clearsBusy]
      by_cases hep : ep = e
      · simp [hep]
      · have hne : ¬ e = ep := fun h => hep h.symm
        rw [updEp_fifo_busy]
        simp [hep, hne]
  | setupEvt d w a fa fs =>
    show ((udc_event_xfer_setup a fa fs st d w).1.eps ep).busy = _
    rw [setup_busy]
    simp [startNextIssues, clearsBusy]
  | statusInEvt fa fs =>
    show ((udc_event_status_in fa fs st).1.eps ep).busy = _
    rw [status_in_busy]
    simp [startNextIssues, clearsBusy]

/-! ## Branch equations for the handlers -/

theorem run_cons (st : DrvState) (e : TEvent) (es : List TEvent) :
    run st (e :: es) =
      ((run (step st e).1 es).1, (step st e).2 ++ (run (step st e).1 es).2) :=
  rfl

theorem run_nil (st : DrvState) : run st [] = (st, []) := rfl

theorem clear_zlp_fifo (st : DrvState) (ep : Nat) (e : Nat) :
    ((udc_ep_buf_clear_zlp st ep).eps e).fifo =
      if e = ep then
        (match (st.eps ep).fifo with
         | [] => []
         | b :: rest => { b with zlp := false } :: rest)
      else (st.eps e).fifo := by
  unfold udc_ep_buf_clear_zlp
  rw [updEp_eps]
  by_cases h : e = ep <;> simp [h]

theorem xfer_next_busy_eq (s : Bool) (st : DrvState) (ep : Nat)
    (hb : (st.eps ep).busy = true) :
    udc_event_xfer_next s st ep = (st, []) := by
  unfold udc_event_xfer_next udc_ep_is_busy
  rw [hb]
  simp

theorem xfer_next_empty_eq (s : Bool) (st : DrvState) (ep : Nat)
    (hb : (st.eps ep).busy = false) (hf : (st.eps ep).fifo = []) :
    udc_event_xfer_next s st ep = (st, []) := by
  unfold udc_event_xfer_next udc_ep_is_busy udc_buf_peek
  rw [hb, hf]
  simp

theorem xfer_next_ok_eq (st : DrvState) (ep : Nat) (b : NetBuf)
    (rest : List NetBuf) (hb : (st.eps ep).busy = false)
    (hf : (st.eps ep).fifo = b :: rest) :
    udc_event_xfer_next true st ep =
      (udc_ep_set_busy st ep true,
       [.xferStart ep (if USB_EP_DIR_IS_IN ep then b.len else b.size)]) := by
  unfold udc_event_xfer_next udc_ep_is_busy udc_buf_peek
  rw [hb, hf]
  simp

theorem xfer_next_fail_eq (st : DrvState) (ep : Nat) (b : NetBuf)
    (rest : List NetBuf) (hb : (st.eps ep).busy = false)
    (hf : (st.eps ep).fifo = b :: rest) :
    udc_event_xfer_next false st ep =
      (st,
       [.xferStart ep (if USB_EP_DIR_IS_IN ep then b.len else b.size),
        .epEvent b.id (-econnrefusedE)]) := by
  unfold udc_event_xfer_next udc_ep_is_busy udc_buf_peek udc_submit_ep_event
  rw [hb, hf]
  simp

theorem complete_none_eq (z fa fs : Bool) (st : DrvState) (ep len : Nat)
    (ok : Bool) (hf : (st.eps ep).fifo = []) :
    udc_event_xfer_complete z fa fs st ep ok len =
      (udc_ep_set_busy st ep false, []) := by
  unfold udc_event_xfer_complete
  have hpeek : udc_buf_peek (udc_ep_set_busy st ep false) ep = none := by
    unfold udc_buf_peek
    rw [set_busy_fifo, hf]
    rfl
  simp only [hpeek]

theorem complete_zlp_eq (fa fs : Bool) (st : DrvState) (ep len : Nat)
    (b : NetBuf) (rest : List NetBuf) (hf : (st.eps ep).fifo = b :: rest)
    (hzb : (USB_EP_DIR_IS_IN ep && b.zlp) = true) :
    udc_event_xfer_complete true fa fs st ep true len =
      (udc_ep_buf_clear_zlp (udc_ep_set_busy st ep false) ep,
       [.xferStart ep 0]) := by
  unfold udc_event_xfer_complete
  have hpeek : udc_buf_peek (udc_ep_set_busy st ep false) ep = some b := by
    unfold udc_buf_peek
    rw [set_busy_fifo, hf]
    rfl
  simp only [hpeek]
  simp [hzb]

theorem complete_data_eq (z fa fs : Bool) (st : DrvState) (ep len : Nat)
    (b : NetBuf) (rest : List NetBuf) (hf : (st.eps ep).fifo = b :: rest)
    (hzb : (USB_EP_DIR_IS_IN ep && b.zlp) = false)
    (hi : ep ≠ USB_CONTROL_EP_IN) (ho : ep ≠ USB_CONTROL_EP_OUT) :
    udc_event_xfer_complete z fa fs st ep true len =
      (updEp (udc_ep_set_busy st ep false) ep
        (fun s => { s with fifo := rest }),
       [.epEvent b.id 0]) := by
  unfold udc_event_xfer_complete udc_submit_ep_event
  have hpeek : udc_buf_peek (udc_ep_set_busy st ep false) ep = some b := by
    unfold udc_buf_peek
    rw [set_busy_fifo, hf]
    rfl
  have hg : udc_buf_get (udc_ep_set_busy st ep false) ep =
      (some b, updEp (udc_ep_set_busy st ep false) ep
        fun s => { s with fifo := rest }) := by
    unfold udc_buf_get
    rw [set_busy_fifo, hf]
  simp only [hpeek, hg]
  cases hd : USB_EP_DIR_IS_IN ep with
  | false => simp [hzb, hi, ho, hd]
  | true =>
    have hz : b.zlp = false := by
      rw [hd] at hzb
      simpa using hzb
    simp [hi, ho, hd, hz]

theorem dequeue_ok_eq (st : DrvState) (ep : Nat) :
    udc_renesas_ra_ep_dequeue true st ep =
      (udc_ep_set_busy (updEp st ep fun s => { s with fifo := [] }) ep false,
       (st.eps ep).fifo.map (fun b => udc_submit_ep_event b (-econnabortedE))
         ++ [.xferAbort ep], 0) := by
  unfold udc_renesas_ra_ep_dequeue udc_buf_get_all
  simp

/-- C4: on a non-control IN endpoint, a queued buffer with the
needs-zero-length-terminator flag, after a successful start and a successful
first completion, is still queued with the flag cleared, and the logical
transfer produces exactly two `R_USBD_XferStart` calls on the endpoint and
exactly one upstream hand-back (status 0, on the second successful
completion); the same transfer without the flag produces exactly one
`R_USBD_XferStart` call and one upstream hand-back. -/
theorem c4_zlp_in_transfer (ep len size clen clen2 : Nat)
    (hin : USB_EP_DIR_IS_IN ep = true) (hi : ep ≠ USB_CONTROL_EP_IN) :
    (run initState [.enq ep len size true, .xfer ep true,
        .cmpl ep true clen true true true,
        .cmpl ep true clen2 true true true]).2 =
      [.xferStart ep len, .xferStart ep 0, .epEvent 0 0] ∧
    startCount (run initState [.enq ep len size true, .xfer ep true,
        .cmpl ep true clen true true true,
        .cmpl ep true clen2 true true true]).2 ep = 2 ∧
    notifCount (run initState [.enq ep len size true, .xfer ep true,
        .cmpl ep true clen true true true,
        .cmpl ep true clen2 true true true]).2 0 = 1 ∧
    ((run initState [.enq ep len size true, .xfer ep true,
        .cmpl ep true clen true true true]).1.eps ep).fifo =
      [⟨0, len, size, false, false, false, 0⟩] ∧
    (run initState [.enq ep len size false, .xfer ep true,
        .cmpl ep true clen true true true]).2 =
      [.xferStart ep len, .epEvent 0 0] ∧
    startCount (run initState [.enq ep len size false, .xfer ep true,
        .cmpl ep true clen true true true]).2 ep = 1 ∧
    notifCount (run initState [.enq ep len size false, .xfer ep true,
        .cmpl ep true clen true true true]).2 0 = 1 := by
  have ho : ep ≠ USB_CONTROL_EP_OUT := by
    intro h
    rw [h] at hin
    simp [USB_EP_DIR_IS_IN, USB_CONTROL_EP_OUT] at hin
  set b0 : NetBuf := ⟨0, len, size, true, false, false, 0⟩ with hb0
  set b1 : NetBuf := ⟨0, len, size, false, false, false, 0⟩ with hb1def
  set st1 : DrvState :=
    udc_buf_put { initState with nextId := 1 } ep b0 with hst1
  have e1 : step initState (.enq ep len size true) = (st1, []) := rfl
  have hb1 : (st1.eps ep).busy = false := by
    rw [hst1, buf_put_busy]
    rfl
  have hf1 : (st1.eps ep).fifo = [b0] := by
    rw [hst1, buf_put_fifo]
    simp [initState]
  set st2 : DrvState := udc_ep_set_busy st1 ep true with hst2
  have e2 : step st1 (.xfer ep true) = (st2, [.xferStart ep len]) := by
    show udc_event_xfer_next true st1 ep = _
    rw [xfer_next_ok_eq st1 ep b0 [] hb1 hf1]
    simp [hin, hb0]
  have hf2 : (st2.eps ep).fifo = [b0] := by
    rw [hst2, set_busy_fifo]
    exact hf1
  set st3 : DrvState :=
    udc_ep_buf_clear_zlp (udc_ep_set_busy st2 ep false) ep with hst3
  have e3 : step st2 (.cmpl ep true clen true true true) =
      (st3, [.xferStart ep 0]) := by
    show udc_event_xfer_complete true true true st2 ep true clen = _
    rw [complete_zlp_eq true true st2 ep clen b0 [] hf2 (by simp [hin, hb0])]
  have hf3 : (st3.eps ep).fifo = [b1] := by
    rw [hst3, clear_zlp_fifo]
    simp [set_busy_fifo, hf2, hb0, hb1def]
  set st4 : DrvState :=
    updEp (udc_ep_set_busy st3 ep false) ep
      (fun s => { s with fifo := [] }) with hst4
  have e4 : step st3 (.cmpl ep true clen2 true true true) =
      (st4, [.epEvent 0 0]) := by
    show udc_event_xfer_complete true true true st3 ep true clen2 = _
    rw [complete_data_eq true true true st3 ep clen2 b1 [] hf3
      (by simp [hb1def]) hi ho]
  have hrunA : run initState [.enq ep len size true, .xfer ep true,
      .cmpl ep true clen true true true,
      .cmpl ep true clen2 true true true] =
      (st4, [.xferStart ep len, .xferStart ep 0, .epEvent 0 0]) := by
    rw [run_cons, e1]
    dsimp only
    rw [run_cons, e2]
    dsimp only
    rw [run_cons, e3]
    dsimp only
    rw [run_cons, e4]
    dsimp only
    rw [run_nil]
    simp
  have hrunA3 : run initState [.enq ep len size true, .xfer ep true,
      .cmpl ep true clen true true true] =
      (st3, [.xferStart ep len, .xferStart ep 0]) := by
    rw [run_cons, e1]
    dsimp only
    rw [run_cons, e2]
    dsimp only
    rw [run_cons, e3]
    dsimp only
    rw [run_nil]
    simp
  set st1b : DrvState :=
    udc_buf_put { initState with nextId := 1 } ep b1 with hst1b
  have e1b : step initState (.enq ep len size false) = (st1b, []) := rfl
  have hb1b : (st1b.eps ep).busy = false := by
    rw [hst1b, buf_put_busy]
    rfl
  have hf1b : (st1b.eps ep).fifo = [b1] := by
    rw [hst1b, buf_put_fifo]
    simp [initState]
  set st2b : DrvState := udc_ep_set_busy st1b ep true with hst2b
  have e2b : step st1b (.xfer ep true) = (st2b, [.xferStart ep len]) := by
    show udc_event_xfer_next true st1b ep = _
    rw [xfer_next_ok_eq st1b ep b1 [] hb1b hf1b]
    simp [hin, hb1def]
  have hf2b : (st2b.eps ep).fifo = [b1] := by
    rw [hst2b, set_busy_fifo]
    exact hf1b
  set st3b : DrvState :=
    updEp (udc_ep_set_busy st2b ep false) ep
      (fun s => { s with fifo := [] }) with hst3b
  have e3b : step st2b (.cmpl ep true clen true true true) =
      (st3b, [.epEvent 0 0]) := by
    show udc_event_xfer_complete true true true st2b ep true clen = _
    rw [complete_data_eq true true true st2b ep clen b1 [] hf2b
      (by simp [hb1def]) hi ho]
  have hrunB : run initState [.enq ep len size false, .xfer ep true,
      .cmpl ep true clen true true true] =
      (st3b, [.xferStart ep len, .epEvent 0 0]) := by
    rw [run_cons, e1b]
    dsimp only
    rw [run_cons, e2b]
    dsimp only
    rw [run_cons, e3b]
    dsimp only
    rw [run_nil]
    simp
  refine ⟨by rw [hrunA], ?_, ?_, ?_, by rw [hrunB], ?_, ?_⟩
  · rw [hrunA]
    simp [startCount]
  · rw [hrunA]
    simp [notifCount]
  · rw [hrunA3]
    exact hf3
  · rw [hrunB]
    simp [startCount]
  · rw [hrunB]
    simp [notifCount]

/-- Witness for C4 at the concrete IN endpoint 0x81 with a 64-byte buffer. -/
theorem c4_witness :
    USB_EP_DIR_IS_IN 129 = true ∧
    (run initState [.enq 129 64 64 true, .xfer 129 true,
        .cmpl 129 true 64 true true true,
        .cmpl 129 true 0 true true true]).2 =
      [.xferStart 129 64, .xferStart 129 0, .epEvent 0 0] :=
  ⟨by decide,
   (c4_zlp_in_transfer 129 64 64 64 0 (by decide) (by decide)).1⟩

/-! ## Exactly-once ownership invariant (claim C1) -/

/-- Ownership bookkeeping for the exactly-once hand-back property: an id not
yet allocated occurs in no FIFO and has no hand-back; an allocated id either
has exactly one hand-back and no queue occurrence, or no hand-back and
exactly one queue occurrence on exactly one endpoint. -/
def C1Inv (st : DrvState) (acts : List Action) : Prop :=
  (∀ id, st.nextId ≤ id →
    notifCount acts id = 0 ∧ ∀ e, occCount (st.eps e).fifo id = 0) ∧
  (∀ id, id < st.nextId →
    (notifCount acts id = 1 ∧ ∀ e, occCount (st.eps e).fifo id = 0) ∨
    (notifCount acts id = 0 ∧ ∃ e, occCount (st.eps e).fifo id = 1 ∧
      ∀ e2, e2 ≠ e → occCount (st.eps e2).fifo id = 0))

theorem C1Inv_congr (st st1 : DrvState) (acts acts1 : List Action)
    (h : C1Inv st acts) (hnid : st1.nextId = st.nextId)
    (hocc : ∀ e id, occCount (st1.eps e).fifo id = occCount (st.eps e).fifo id)
    (hnot : ∀ id, notifCount acts1 id = notifCount acts id) :
    C1Inv st1 acts1 := by
  obtain ⟨hfresh, hown⟩ := h
  constructor
  · intro id hid
    rw [hnid] at hid
    have h1 := hfresh id hid
    exact ⟨by rw [hnot]; exact h1.1, fun e => by rw [hocc]; exact h1.2 e⟩
  · intro id hid
    rw [hnid] at hid
    rcases hown id hid with ⟨hn, ho2⟩ | ⟨hn, e0, h1, h2⟩
    · exact Or.inl ⟨by rw [hnot]; exact hn,
        fun e => by rw [hocc]; exact ho2 e⟩
    · exact Or.inr ⟨by rw [hnot]; exact hn, e0, by rw [hocc]; exact h1,
        fun e2 he2 => by rw [hocc]; exact h2 e2 he2⟩

theorem occCount_clear_zlp (st : DrvState) (ep e id : Nat) :
    occCount ((udc_ep_buf_clear_zlp st ep).eps e).fifo id =
      occCount (st.eps e).fifo id := by
  rw [clear_zlp_fifo]
  by_cases he : e = ep
  · rw [if_pos he, he]
    cases hf : (st.eps ep).fifo with
    | nil => rfl
    | cons b rest => simp [occCount]
  · rw [if_neg he]

theorem notifCount_epEvent (acts : List Action) (i : Nat) (s : Int)
    (id : Nat) :
    notifCount (acts ++ [Action.epEvent i s]) id =
      notifCount acts id + (if i = id then 1 else 0) := by
  rw [notifCount_append]
  simp [notifCount]

theorem c1inv_enq (st : DrvState) (acts : List Action) (h : C1Inv st acts)
    (ep len size : Nat) (z : Bool) :
    C1Inv (step st (.enq ep len size z)).1
      (acts ++ (step st (.enq ep len size z)).2) := by
  obtain ⟨hfresh, hown⟩ := h
  have hnot : ∀ id, notifCount (acts ++ (step st (.enq ep len size z)).2) id
      = notifCount acts id := by
    intro id
    rw [notifCount_append]
    rfl
  have hocc : ∀ e id,
      occCount (((step st (.enq ep len size z)).1).eps e).fifo id =
        occCount (st.eps e).fifo id +
          (if e = ep ∧ st.nextId = id then 1 else 0) := by
    intro e id
    show occCount ((udc_buf_put _ ep _).eps e).fifo id = _
    rw [buf_put_fifo]
    by_cases he : e = ep
    · rw [if_pos he, occCount_append]
      by_cases hid : st.nextId = id
      · simp [occCount, he, hid]
      · simp [occCount, he, hid]
    · simp [he]
  have hnid : ((step st (.enq ep len size z)).1).nextId = st.nextId + 1 := rfl
  constructor
  · intro id hid
    rw [hnid] at hid
    have h1 := hfresh id (by omega)
    refine ⟨by rw [hnot]; exact h1.1, fun e => ?_⟩
    rw [hocc, h1.2 e]
    have : ¬ (e = ep ∧ st.nextId = id) := by
      rintro ⟨-, h2⟩
      omega
    simp [this]
  · intro id hid
    rw [hnid] at hid
    by_cases hlt : id < st.nextId
    · rcases hown id hlt with ⟨hn, ho2⟩ | ⟨hn, e0, h1, h2⟩
      · left
        refine ⟨by rw [hnot]; exact hn, fun e => ?_⟩
        rw [hocc, ho2 e]
        have : ¬ (e = ep ∧ st.nextId = id) := by
          rintro ⟨-, h2⟩
          omega
        simp [this]
      · right
        have hne : ∀ e, ¬ (e = ep ∧ st.nextId = id) := by
          rintro e ⟨-, h3⟩
          omega
        refine ⟨by rw [hnot]; exact hn, e0, ?_, fun e2 he2 => ?_⟩
        · rw [hocc, h1]
          simp [hne e0]
        · rw [hocc, h2 e2 he2]
          simp [hne e2]
    · have hid2 : id = st.nextId := by omega
      have h1 := hfresh id (by omega)
      right
      refine ⟨by rw [hnot]; exact h1.1, ep, ?_, fun e2 he2 => ?_⟩
      · rw [hocc, h1.2 ep]
        simp [hid2]
      · rw [hocc, h1.2 e2]
        simp [he2]

theorem c1inv_xfer (st : DrvState) (acts : List Action) (h : C1Inv st acts)
    (ep : Nat) :
    C1Inv (step st (.xfer ep true)).1
      (acts ++ (step st (.xfer ep true)).2) := by
  have hstep : step st (.xfer ep true) = udc_event_xfer_next true st ep := rfl
  rw [hstep]
  cases hb : (st.eps ep).busy with
  | true =>
    rw [xfer_next_busy_eq true st ep hb]
    refine C1Inv_congr st _ acts _ h rfl (fun e id => rfl) fun id => ?_
    rw [notifCount_append]
    rfl
  | false =>
    cases hf : (st.eps ep).fifo with
    | nil =>
      rw [xfer_next_empty_eq true st ep hb hf]
      refine C1Inv_congr st _ acts _ h rfl (fun e id => rfl) fun id => ?_
      rw [notifCount_append]
      rfl
    | cons b rest =>
      rw [xfer_next_ok_eq st ep b rest hb hf]
      refine C1Inv_congr st _ acts _ h (set_busy_nextId st ep true)
        (fun e id => by rw [set_busy_fifo]) fun id => ?_
      rw [notifCount_append]
      rfl

theorem c1inv_cmpl (st : DrvState) (acts : List Action) (h : C1Inv st acts)
    (ep len : Nat) (fa fs : Bool) (hi : ep ≠ USB_CONTROL_EP_IN)
    (ho : ep ≠ USB_CONTROL_EP_OUT) :
    C1Inv (step st (.cmpl ep true len true fa fs)).1
      (acts ++ (step st (.cmpl ep true len true fa fs)).2) := by
  have hstep : step st (.cmpl ep true len true fa fs) =
      udc_event_xfer_complete true fa fs st ep true len := rfl
  rw [hstep]
  cases hf : (st.eps ep).fifo with
  | nil =>
    rw [complete_none_eq true fa fs st ep len true hf]
    refine C1Inv_congr st _ acts _ h (set_busy_nextId st ep false)
      (fun e id => by rw [set_busy_fifo]) fun id => ?_
    rw [notifCount_append]
    rfl
  | cons b rest =>
    by_cases hz : (USB_EP_DIR_IS_IN ep && b.zlp) = true
    · rw [complete_zlp_eq fa fs st ep len b rest hf hz]
      refine C1Inv_congr st _ acts _ h rfl
        (fun e id => by rw [occCount_clear_zlp, set_busy_fifo]) fun id => ?_
      rw [notifCount_append]
      rfl
    · have hz' : (USB_EP_DIR_IS_IN ep && b.zlp) = false := by
        cases hval : (USB_EP_DIR_IS_IN ep && b.zlp)
        · rfl
        · exact absurd hval hz
      rw [complete_data_eq true fa fs st ep len b rest hf hz' hi ho]
      obtain ⟨hfresh, hown⟩ := h
      have hocc : ∀ e id,
          occCount ((updEp (udc_ep_set_busy st ep false) ep
            (fun s => { s with fifo := rest })).eps e).fifo id =
            if e = ep then occCount rest id
            else occCount (st.eps e).fifo id := by
        intro e id
        rw [updEp_eps]
        by_cases he : e = ep
        · simp [he]
        · simp [he, set_busy_fifo]
      have hadd : ∀ id, occCount (st.eps ep).fifo id =
          (if b.id = id then 1 else 0) + occCount rest id := by
        intro id
        rw [hf]
        rfl
      constructor
      · intro id hid
        have h1 := hfresh id hid
        have h2 := h1.2 ep
        rw [hadd] at h2
        have hbid : ¬ b.id = id := by
          intro hh
          rw [if_pos hh] at h2
          omega
        have hrest : occCount rest id = 0 := by
          rw [if_neg hbid] at h2
          omega
        refine ⟨?_, fun e => ?_⟩
        · rw [notifCount_epEvent, h1.1, if_neg hbid]
        · rw [hocc]
          by_cases he : e = ep
          · simp [he, hrest]
          · simp [he, h1.2 e]
      · intro id hid
        rcases hown id hid with ⟨hn, ho2⟩ | ⟨hn, e0, h1, h2⟩
        · have h2 := ho2 ep
          rw [hadd] at h2
          have hbid : ¬ b.id = id := by
            intro hh
            rw [if_pos hh] at h2
            omega
          have hrest : occCount rest id = 0 := by
            rw [if_neg hbid] at h2
            omega
          left
          refine ⟨by rw [notifCount_epEvent, hn, if_neg hbid], fun e => ?_⟩
          rw [hocc]
          by_cases he : e = ep
          · simp [he, hrest]
          · simp [he, ho2 e]
        · by_cases hbid : b.id = id
          · have he0 : e0 = ep := by
              by_contra hne
              have h3 := h2 ep fun hh => hne hh.symm
              rw [hadd, if_pos hbid] at h3
              omega
            subst he0
            have hrest : occCount rest id = 0 := by
              have h3 := h1
              rw [hadd, if_pos hbid] at h3
              omega
            left
            refine ⟨by rw [notifCount_epEvent, hn, if_pos hbid], fun e => ?_⟩
            rw [hocc]
            by_cases he : e = e0
            · simp [he, hrest]
            · simp [he, h2 e he]
          · right
            refine ⟨by rw [notifCount_epEvent, hn, if_neg hbid], e0, ?_,
              fun e2 he2 => ?_⟩
            · rw [hocc]
              by_cases he : e0 = ep
              · rw [if_pos he]
                have h3 := h1
                rw [he, hadd, if_neg hbid] at h3
                omega
              · rw [if_neg he]
                exact h1
            · rw [hocc]
              by_cases he : e2 = ep
              · rw [if_pos he]
                have h3 := h2 e2 he2
                rw [he, hadd, if_neg hbid] at h3
                omega
              · rw [if_neg he]
                exact h2 e2 he2

theorem c1inv_deq (st : DrvState) (acts : List Action) (h : C1Inv st acts)
    (ep : Nat) :
    C1Inv (step st (.deq ep true)).1
      (acts ++ (step st (.deq ep true)).2) := by
  have hstep1 : (step st (.deq ep true)).1 =
      udc_ep_set_busy (updEp st ep fun s => { s with fifo := [] }) ep
        false := by
    show (udc_renesas_ra_ep_dequeue true st ep).1 = _
    rw [dequeue_ok_eq]
  have hstep2 : (step st (.deq ep true)).2 =
      (st.eps ep).fifo.map (fun b => udc_submit_ep_event b (-econnabortedE))
        ++ [.xferAbort ep] := by
    show (udc_renesas_ra_ep_dequeue true st ep).2.1 = _
    rw [dequeue_ok_eq]
  rw [hstep1, hstep2]
  obtain ⟨hfresh, hown⟩ := h
  have hocc : ∀ e id,
      occCount ((udc_ep_set_busy (updEp st ep
          fun s => { s with fifo := [] }) ep false).eps e).fifo id =
        if e = ep then 0 else occCount (st.eps e).fifo id := by
    intro e id
    rw [set_busy_fifo, updEp_eps]
    by_cases he : e = ep
    · simp [he, occCount]
    · simp [he]
  have hnot : ∀ id, notifCount (acts ++ ((st.eps ep).fifo.map
      (fun b => udc_submit_ep_event b (-econnabortedE))
        ++ [.xferAbort ep])) id =
      notifCount acts id + occCount (st.eps ep).fifo id := by
    intro id
    rw [notifCount_append, notifCount_append, notifCount_abortsMap]
    simp [notifCount]
  constructor
  · intro id hid
    have h1 := hfresh id hid
    refine ⟨by rw [hnot, h1.1, h1.2 ep], fun e => ?_⟩
    rw [hocc]
    by_cases he : e = ep
    · simp [he]
    · simp [he, h1.2 e]
  · intro id hid
    rcases hown id hid with ⟨hn, ho2⟩ | ⟨hn, e0, h1, h2⟩
    · left
      refine ⟨by rw [hnot, hn, ho2 ep], fun e => ?_⟩
      rw [hocc]
      by_cases he : e = ep
      · simp [he]
      · simp [he, ho2 e]
    · by_cases he0 : e0 = ep
      · left
        subst he0
        refine ⟨by rw [hnot, hn, h1], fun e => ?_⟩
        rw [hocc]
        by_cases he : e = e0
        · simp [he]
        · simp [he, h2 e he]
      · right
        have hep0 : occCount (st.eps ep).fifo id = 0 :=
          h2 ep fun hh => he0 hh.symm
        refine ⟨by rw [hnot, hn, hep0], e0, ?_, fun e2 he2 => ?_⟩
        · rw [hocc, if_neg he0]
          exact h1
        · rw [hocc]
          by_cases he : e2 = ep
          · simp [he]
          · simp [he, h2 e2 he2]

theorem c1inv_step (st : DrvState) (acts : List Action) (ev : TEvent)
    (h : C1Inv st acts) (hok : engineOk ev = true) :
    C1Inv (step st ev).1 (acts ++ (step st ev).2) := by
  cases ev with
  | enq ep len size z => exact c1inv_enq st acts h ep len size z
  | xfer ep s =>
    have hs : s = true := by simpa [engineOk] using hok
    subst hs
    exact c1inv_xfer st acts h ep
  | cmpl ep ok len z fa fs =>
    have hok2 : ((ok = true ∧ z = true) ∧ ¬ ep = USB_CONTROL_EP_IN) ∧
        ¬ ep = USB_CONTROL_EP_OUT := by
      simpa [engineOk, Bool.and_eq_true, decide_eq_true_eq] using hok
    obtain ⟨⟨⟨h1, h2⟩, h3⟩, h4⟩ := hok2
    subst h1
    subst h2
    exact c1inv_cmpl st acts h ep len fa fs h3 h4
  | deq ep a =>
    have ha : a = true := by simpa [engineOk] using hok
    subst ha
    exact c1inv_deq st acts h ep
  | setupEvt d w a fa fs => simp [engineOk] at hok
  | statusInEvt fa fs => simp [engineOk] at hok

theorem c1inv_run (evs : List TEvent) (st : DrvState) (acts : List Action)
    (h : C1Inv st acts) (hok : engineOnly evs = true) :
    C1Inv (run st evs).1 (acts ++ (run st evs).2) := by
  induction evs generalizing st acts with
  | nil =>
    rw [run_nil]
    simpa using h
  | cons e es ih =>
    have h1 : engineOk e = true ∧ engineOnly es = true := by
      simpa [engineOnly, List.all_cons, Bool.and_eq_true] using hok
    have h2 := c1inv_step st acts e h h1.1
    have h3 := ih (step st e).1 (acts ++ (step st e).2) h2 h1.2
    rw [run_cons]
    simpa [List.append_assoc] using h3

theorem c1inv_init : C1Inv initState [] := by
  constructor
  · intro id hid
    exact ⟨rfl, fun e => rfl⟩
  · intro id hid
    exact absurd hid (Nat.not_lt_zero id)

/-- C1 counterexample: on endpoint 0x01, a buffer is enqueued, a start is
attempted and refused by the Controller, and the endpoint is then dequeued.
The buffer receives two terminal notifications (`-ECONNREFUSED` from the
failed start, then `-ECONNABORTED` from the dequeue), refuting "never more
than one" over start/complete/dequeue sequences. -/
theorem c1_counterexample :
    notifCount (run initState
      [.enq 1 4 8 false, .xfer 1 false, .deq 1 true]).2 0 = 2 := by
  decide

/-- C1 (amended): over every schedule of transfer-engine events (enqueue /
start / complete / dequeue, with completions on non-control endpoints) in
which every Controller call succeeds and every hardware completion result is
a success, each enqueued buffer is handed back to the Upstream Notifier
exactly once in total: either it has exactly one terminal notification and
no longer sits in any endpoint FIFO, or it has none and still sits, exactly
once, in exactly one endpoint FIFO. -/
theorem c1_exactly_once (evs : List TEvent) (hok : engineOnly evs = true)
    (id : Nat) (hid : id < (run initState evs).1.nextId) :
    (notifCount (run initState evs).2 id = 1 ∧
      ∀ e, occCount ((run initState evs).1.eps e).fifo id = 0) ∨
    (notifCount (run initState evs).2 id = 0 ∧
      ∃ e, occCount ((run initState evs).1.eps e).fifo id = 1 ∧
        ∀ e2, e2 ≠ e → occCount ((run initState evs).1.eps e2).fifo id = 0) := by
  have h := c1inv_run evs initState [] c1inv_init hok
  rw [List.nil_append] at h
  exact h.2 id hid

/-- Witness for C1 (amended): a completed transfer on endpoint 0x01 whose
buffer has been handed back exactly once. -/
theorem c1_witness :
    engineOnly [.enq 1 4 8 false, .xfer 1 true,
      .cmpl 1 true 4 true true true] = true ∧
    0 < (run initState [.enq 1 4 8 false, .xfer 1 true,
      .cmpl 1 true 4 true true true]).1.nextId ∧
    ((notifCount (run initState [.enq 1 4 8 false, .xfer 1 true,
        .cmpl 1 true 4 true true true]).2 0 = 1 ∧
      ∀ e, occCount ((run initState [.enq 1 4 8 false, .xfer 1 true,
        .cmpl 1 true 4 true true true]).1.eps e).fifo 0 = 0) ∨
    (notifCount (run initState [.enq 1 4 8 false, .xfer 1 true,
        .cmpl 1 true 4 true true true]).2 0 = 0 ∧
      ∃ e, occCount ((run initState [.enq 1 4 8 false, .xfer 1 true,
        .cmpl 1 true 4 true true true]).1.eps e).fifo 0 = 1 ∧
        ∀ e2, e2 ≠ e → occCount ((run initState [.enq 1 4 8 false,
          .xfer 1 true, .cmpl 1 true 4 true true true]).1.eps e2).fifo 0
            = 0)) :=
  ⟨by decide, by decide,
   c1_exactly_once [.enq 1 4 8 false, .xfer 1 true,
     .cmpl 1 true 4 true true true] (by decide) 0 (by decide)⟩

end UdcRenesasRa
